import Mathlib

/-!
Verification of the terraform-provider-directus repository.

This file shallowly embeds the parts of the provider that the claims
C1..C10 are about:

* the three-state Terraform framework values (`types.String`, `types.Bool`,
  `types.List`) as inductive types `TFString`, `TFBool`, `TFList`;
* JSON request payloads (Go `map[string]interface{}` values that are
  serialized to JSON) as association lists `JObj` of key/`JValue` pairs.
  The Go code never writes the same key twice into any of the maps
  modelled here, so inserting is modelled as appending the new pair and
  reading as `List.lookup` (first match);
* the field-setter helpers of `internal/provider/helpers.go`;
* the HTTP client validation and path building of
  `internal/client/client.go`.  A client call is modelled as
  `Except String HttpRequest`: `.error` is the validation error returned
  before any network activity (so no HTTP request exists at all), `.ok r`
  means the request `r` is issued;
* the role-policies attachment reconciler
  (`RolePoliciesAttachmentResource.Create/Update/Delete`).  The remote
  read `readRolePolicies` and the remote write are modelled by oracle
  parameters `readRes`/`writeRes`; an operation returns its diagnostics
  outcome together with the list of write (PATCH-to-role) calls it issued;
* the policy, role and collection entity mappers.
-/

namespace Directus

/-- Terraform framework `types.String`: null, unknown, or a known string. -/
inductive TFString where
  | null
  | unknown
  | value (s : String)
deriving DecidableEq

/-- Go `types.String.IsNull()`. -/
def TFString.isNull : TFString → Bool
  | .null => true
  | _ => false

/-- Go `types.String.IsUnknown()`. -/
def TFString.isUnknown : TFString → Bool
  | .unknown => true
  | _ => false

/-- Go `types.String.ValueString()`: the known value, or `""` for null/unknown. -/
def TFString.valueString : TFString → String
  | .value s => s
  | _ => ""

/-- Whether the value is explicitly set (neither null nor unknown). -/
def TFString.isSet : TFString → Bool
  | .value _ => true
  | _ => false

/-- Terraform framework `types.Bool`. -/
inductive TFBool where
  | null
  | unknown
  | value (b : Bool)
deriving DecidableEq

/-- Go `types.Bool.IsNull()`. -/
def TFBool.isNull : TFBool → Bool
  | .null => true
  | _ => false

/-- Go `types.Bool.IsUnknown()`. -/
def TFBool.isUnknown : TFBool → Bool
  | .unknown => true
  | _ => false

/-- Go `types.Bool.ValueBool()`. -/
def TFBool.valueBool : TFBool → Bool
  | .value b => b
  | _ => false

/-- Whether the value is explicitly set (neither null nor unknown). -/
def TFBool.isSet : TFBool → Bool
  | .value _ => true
  | _ => false

/-- Terraform framework `types.List` of strings (used for role children/users). -/
inductive TFList where
  | null
  | unknown
  | value (xs : List String)
deriving DecidableEq

/-- A JSON value, as produced by serializing the Go `map[string]interface{}`
request bodies built by the provider. -/
inductive JValue where
  | null
  | str (s : String)
  | bool (b : Bool)
  | arr (elems : List JValue)
  | obj (fields : List (String × JValue))

/-- A JSON object under construction: an association list of key/value pairs.
The provider never writes the same key twice into one map, so a Go map
assignment `input[key] = v` is modelled as appending `(key, v)`. -/
abbrev JObj := List (String × JValue)

/-- helpers.go `setStringField`: add the field only when it is neither null
nor unknown. -/
def setStringField (input : JObj) (key : String) (value : TFString) : JObj :=
  if !value.isNull && !value.isUnknown then
    input ++ [(key, JValue.str value.valueString)]
  else
    input

/-- helpers.go `setNullableStringField`: skip when unknown, send an explicit
JSON null when null, otherwise send the string value. -/
def setNullableStringField (input : JObj) (key : String) (value : TFString) : JObj :=
  if value.isUnknown then
    input
  else if value.isNull then
    input ++ [(key, JValue.null)]
  else
    input ++ [(key, JValue.str value.valueString)]

/-- helpers.go `setBoolField`: add the field only when it is neither null nor
unknown. -/
def setBoolField (input : JObj) (key : String) (value : TFBool) : JObj :=
  if !value.isNull && !value.isUnknown then
    input ++ [(key, JValue.bool value.valueBool)]
  else
    input

/-- The expected optional entry produced by `setStringField` for one field. -/
def tfStrEntry : TFString → Option JValue
  | .value s => some (JValue.str s)
  | _ => none

/-- The expected optional entry produced by `setBoolField` for one field. -/
def tfBoolEntry : TFBool → Option JValue
  | .value b => some (JValue.bool b)
  | _ => none

/-- The expected optional entry produced by `setNullableStringField`. -/
def tfNullableEntry : TFString → Option JValue
  | .null => some JValue.null
  | .unknown => none
  | .value s => some (JValue.str s)

/-! ### Lookup lemmas for the append-style object construction -/

theorem lookup_append (k : String) (l1 l2 : JObj) :
    (l1 ++ l2).lookup k = ((l1.lookup k).or (l2.lookup k)) := by
  induction l1 with
  | nil => rfl
  | cons p t ih =>
    rcases p with ⟨a, v⟩
    by_cases h : k = a
    · subst h
      simp [List.lookup]
    · simp [List.lookup, beq_false_of_ne h, ih]

theorem lookup_append_single_self (input : JObj) (k : String) (j : JValue)
    (h : input.lookup k = none) :
    (input ++ [(k, j)]).lookup k = some j := by
  rw [lookup_append, h]
  simp [List.lookup]

theorem lookup_append_single_ne (input : JObj) (q k : String) (j : JValue)
    (h : (q == k) = false) :
    (input ++ [(k, j)]).lookup q = input.lookup q := by
  rw [lookup_append]
  simp [List.lookup, h]

theorem setStringField_lookup_self (input : JObj) (k : String) (v : TFString)
    (h : input.lookup k = none) :
    (setStringField input k v).lookup k = tfStrEntry v := by
  cases v <;> simp [setStringField, TFString.isNull, TFString.isUnknown,
    TFString.valueString, tfStrEntry, h, lookup_append_single_self]

theorem setStringField_lookup_ne (input : JObj) (q k : String) (v : TFString)
    (h : (q == k) = false) :
    (setStringField input k v).lookup q = input.lookup q := by
  cases v <;> simp [setStringField, TFString.isNull, TFString.isUnknown,
    lookup_append_single_ne _ _ _ _ h]

theorem setBoolField_lookup_self (input : JObj) (k : String) (v : TFBool)
    (h : input.lookup k = none) :
    (setBoolField input k v).lookup k = tfBoolEntry v := by
  cases v <;> simp [setBoolField, TFBool.isNull, TFBool.isUnknown,
    TFBool.valueBool, tfBoolEntry, h, lookup_append_single_self]

theorem setBoolField_lookup_ne (input : JObj) (q k : String) (v : TFBool)
    (h : (q == k) = false) :
    (setBoolField input k v).lookup q = input.lookup q := by
  cases v <;> simp [setBoolField, TFBool.isNull, TFBool.isUnknown,
    lookup_append_single_ne _ _ _ _ h]

theorem setNullableStringField_lookup_self (input : JObj) (k : String)
    (v : TFString) (h : input.lookup k = none) :
    (setNullableStringField input k v).lookup k = tfNullableEntry v := by
  cases v <;> simp [setNullableStringField, TFString.isNull, TFString.isUnknown,
    TFString.valueString, tfNullableEntry, h, lookup_append_single_self]

theorem setNullableStringField_lookup_ne (input : JObj) (q k : String)
    (v : TFString) (h : (q == k) = false) :
    (setNullableStringField input k v).lookup q = input.lookup q := by
  cases v <;> simp [setNullableStringField, TFString.isNull, TFString.isUnknown,
    lookup_append_single_ne _ _ _ _ h]

/-! ### HTTP client (internal/client/client.go) -/

/-- The fixed set of system collections of `buildCollectionPath`. -/
def systemCollections : List String :=
  ["collections", "roles", "policies", "users", "folders", "files",
   "activity", "revisions", "webhooks", "flows", "operations",
   "dashboards", "panels", "shares", "settings"]

/-- client.go `buildCollectionPath`: system collections live at
`/collection` or `/collection/id`; custom collections under `/items/...`. -/
def buildCollectionPath (collection id : String) : String :=
  if collection ∈ systemCollections then
    if id ≠ "" then "/" ++ collection ++ "/" ++ id
    else "/" ++ collection
  else
    if id ≠ "" then "/items/" ++ collection ++ "/" ++ id
    else "/items/" ++ collection

/-- HTTP method of a request issued by the client. -/
inductive Method where
  | get
  | post
  | patch
  | delete
deriving DecidableEq

/-- An HTTP request as issued by `Client.doRequest`.  Query parameters are
kept unencoded (their URL encoding is irrelevant to the claims). -/
structure HttpRequest where
  method : Method
  path : String
  params : List (String × String)
  body : Option JValue

/-- Whether an `Except` is a success. `.error` for the client functions below
means the validation error was returned synchronously, before any request
object was even constructed, hence no HTTP request is issued. -/
def exceptOk {ε α : Type} : Except ε α → Bool
  | .ok _ => true
  | .error _ => false

/-- client.go `Client.Get`: validate, then issue one GET. -/
def clientGet (collection id : String) : Except String HttpRequest :=
  if collection = "" then .error "collection is required"
  else if id = "" then .error "id is required"
  else .ok ⟨Method.get, buildCollectionPath collection id, [], none⟩

/-- client.go `Client.GetWithParams`: validate, then issue one GET carrying
the query parameters. -/
def clientGetWithParams (collection id : String) (params : List (String × String)) :
    Except String HttpRequest :=
  if collection = "" then .error "collection is required"
  else if id = "" then .error "id is required"
  else .ok ⟨Method.get, buildCollectionPath collection id, params, none⟩

/-- client.go `Client.List`: validate, then issue one GET on the collection. -/
def clientList (collection : String) : Except String HttpRequest :=
  if collection = "" then .error "collection is required"
  else .ok ⟨Method.get, buildCollectionPath collection "", [], none⟩

/-- client.go `Client.Create`: validate (nil data rejected), then POST. -/
def clientCreate (collection : String) (data : Option JValue) :
    Except String HttpRequest :=
  if collection = "" then .error "collection is required"
  else
    match data with
    | none => .error "data is required"
    | some d => .ok ⟨Method.post, buildCollectionPath collection "", [], some d⟩

/-- client.go `Client.Update`: validate (empty id and nil data rejected),
then PATCH. -/
def clientUpdate (collection id : String) (data : Option JValue) :
    Except String HttpRequest :=
  if collection = "" then .error "collection is required"
  else if id = "" then .error "id is required"
  else
    match data with
    | none => .error "data is required"
    | some d => .ok ⟨Method.patch, buildCollectionPath collection id, [], some d⟩

/-- client.go `Client.Delete`: validate, then DELETE. -/
def clientDelete (collection id : String) : Except String HttpRequest :=
  if collection = "" then .error "collection is required"
  else if id = "" then .error "id is required"
  else .ok ⟨Method.delete, buildCollectionPath collection id, [], none⟩

/-- C6: path resolution.  For system collections the path is
`/collection` or `/collection/id`; for every other collection it is
`/items/collection` or `/items/collection/id`; in particular the four
table entries of the spec hold. -/
theorem path_resolution (c id : String) :
    (c ∈ systemCollections → id ≠ "" →
      buildCollectionPath c id = "/" ++ c ++ "/" ++ id)
    ∧ (c ∈ systemCollections → buildCollectionPath c "" = "/" ++ c)
    ∧ (c ∉ systemCollections → id ≠ "" →
      buildCollectionPath c id = "/items/" ++ c ++ "/" ++ id)
    ∧ (c ∉ systemCollections → buildCollectionPath c "" = "/items/" ++ c)
    ∧ buildCollectionPath "roles" "x" = "/roles/x"
    ∧ buildCollectionPath "roles" "" = "/roles"
    ∧ buildCollectionPath "articles" "1" = "/items/articles/1"
    ∧ buildCollectionPath "articles" "" = "/items/articles" := by
  refine ⟨?_, ?_, ?_, ?_, by decide, by decide, by decide, by decide⟩
  · intro hs hid
    simp [buildCollectionPath, hs, hid]
  · intro hs
    simp [buildCollectionPath, hs]
  · intro hs hid
    simp [buildCollectionPath, hs, hid]
  · intro hs
    simp [buildCollectionPath, hs]

/-- C6 witness: the theorem applied at the concrete input `("roles", "x")`. -/
theorem path_resolution_witness :
    buildCollectionPath "roles" "x" = "/roles/x" :=
  (path_resolution "roles" "x").1 (by decide) (by decide)

/-- C9: client-side validation before network.  For every client CRUD
operation, the result is a synchronous validation error (so by construction
no `HttpRequest` is issued) exactly when a required parameter is empty:
the collection name for all six, the id for Get/GetWithParams/Update/Delete,
and the data for Create/Update. -/
theorem client_validation (collection id : String)
    (params : List (String × String)) (data : Option JValue) :
    (exceptOk (clientGet collection id) = false ↔ (collection = "" ∨ id = ""))
    ∧ (exceptOk (clientGetWithParams collection id params) = false ↔
      (collection = "" ∨ id = ""))
    ∧ (exceptOk (clientList collection) = false ↔ collection = "")
    ∧ (exceptOk (clientCreate collection data) = false ↔
      (collection = "" ∨ data = none))
    ∧ (exceptOk (clientUpdate collection id data) = false ↔
      (collection = "" ∨ id = "" ∨ data = none))
    ∧ (exceptOk (clientDelete collection id) = false ↔
      (collection = "" ∨ id = "")) := by
  by_cases hc : collection = "" <;> by_cases hi : id = "" <;> cases data <;>
    simp [clientGet, clientGetWithParams, clientList, clientCreate,
      clientUpdate, clientDelete, exceptOk, hc, hi]

/-! ### Role-policies attachment reconciler (role_policies_attachment_resource.go) -/

/-- One entry of the `directus_access` junction table as returned when
expanding the role's policies field (`accessRecordResponse`). -/
structure AccessRecord where
  id : String
  policy : String
deriving DecidableEq

/-- The to-create computation of `Create`/`Update`: each desired policy id
absent from the `existingMap` index (policy id → access id) yields one
`map[string]interface{}{"policy": pid}` instruction, here represented by its
policy id.  Membership in the Go map built from `existing` is exactly
"some record of `existing` has this policy id". -/
def toCreate (desired : List String) (existing : List AccessRecord) : List String :=
  desired.filter (fun pid => !(existing.any (fun r => r.policy == pid)))

/-- The to-delete computation of `Create`/`Update`: the access-record id of
every existing record whose policy id is not in `desiredSet`. -/
def toDelete (desired : List String) (existing : List AccessRecord) : List String :=
  (existing.filter (fun r => !(desired.contains r.policy))).map (fun r => r.id)

/-- One `{"policy": pid}` create instruction as serialized JSON. -/
def createInstr (pid : String) : JValue :=
  JValue.obj [("policy", JValue.str pid)]

/-- The `policiesOp` map of `Create`/`Update`: `create` key set only when
there are creates, `delete` key set only when there are deletes. -/
def policiesOp (tc td : List String) : JObj :=
  let op : JObj := []
  let op := if tc.length > 0 then op ++ [("create", JValue.arr (tc.map createInstr))] else op
  let op := if td.length > 0 then op ++ [("delete", JValue.arr (td.map JValue.str))] else op
  op

/-- The `patchBody` of `Create`/`Update`: the policies operation nested under
the single `policies` key. -/
def rolePatchBody (tc td : List String) : JObj :=
  [("policies", JValue.obj (policiesOp tc td))]

/-- A call to `Client.Update` (a PATCH write) issued by an attachment
operation: target collection, target id, and JSON body. -/
structure WriteCall where
  collection : String
  id : String
  body : JObj

/-- `RolePoliciesAttachmentResource.Create`, with the remote read
(`readRolePolicies`) and the remote write outcome supplied as oracles.
Returns the diagnostics outcome and the list of write calls issued. -/
def attachmentCreate (readRes : Except String (List AccessRecord))
    (writeRes : Except String Unit) (roleID : String) (desired : List String) :
    Except String Unit × List WriteCall :=
  match readRes with
  | .error e =>
    (.error ("Could not read policies for role " ++ roleID ++ ": " ++ e), [])
  | .ok existing =>
    let tc := toCreate desired existing
    let td := toDelete desired existing
    if tc.length > 0 ∨ td.length > 0 then
      match writeRes with
      | .error e =>
        (.error ("Could not update policy attachments for role " ++ roleID ++ ": " ++ e),
          [⟨"roles", roleID, rolePatchBody tc td⟩])
      | .ok _ => (.ok (), [⟨"roles", roleID, rolePatchBody tc td⟩])
    else
      (.ok (), [])

/-- `RolePoliciesAttachmentResource.Update`: the reconciliation body is
line-for-line the same as `Create`. -/
def attachmentUpdate (readRes : Except String (List AccessRecord))
    (writeRes : Except String Unit) (roleID : String) (desired : List String) :
    Except String Unit × List WriteCall :=
  match readRes with
  | .error e =>
    (.error ("Could not read policies for role " ++ roleID ++ ": " ++ e), [])
  | .ok existing =>
    let tc := toCreate desired existing
    let td := toDelete desired existing
    if tc.length > 0 ∨ td.length > 0 then
      match writeRes with
      | .error e =>
        (.error ("Could not update policy attachments for role " ++ roleID ++ ": " ++ e),
          [⟨"roles", roleID, rolePatchBody tc td⟩])
      | .ok _ => (.ok (), [⟨"roles", roleID, rolePatchBody tc td⟩])
    else
      (.ok (), [])

/-- `RolePoliciesAttachmentResource.Delete`: read, return silently when no
records exist, otherwise delete every access record in one PATCH. -/
def attachmentDelete (readRes : Except String (List AccessRecord))
    (writeRes : Except String Unit) (roleID : String) :
    Except String Unit × List WriteCall :=
  match readRes with
  | .error e =>
    (.error ("Could not read policies for role " ++ roleID ++ ": " ++ e), [])
  | .ok existing =>
    if existing.length = 0 then
      (.ok (), [])
    else
      let accessIDs := existing.map (fun r => r.id)
      let body : JObj :=
        [("policies", JValue.obj [("delete", JValue.arr (accessIDs.map JValue.str))])]
      match writeRes with
      | .error e =>
        (.error ("Could not detach policies from role " ++ roleID ++ ": " ++ e),
          [⟨"roles", roleID, body⟩])
      | .ok _ => (.ok (), [⟨"roles", roleID, body⟩])

/-- A nodup list counts each element once if present, zero times otherwise. -/
theorem count_of_nodup (a : String) (l : List String) (h : l.Nodup) :
    l.count a = (if a ∈ l then 1 else 0) := by
  by_cases hm : a ∈ l
  · rw [if_pos hm]
    exact List.count_eq_one_of_mem h hm
  · rw [if_neg hm]
    exact List.count_eq_zero_of_not_mem hm

/-- Membership in the to-create list is exactly membership in `D \ O`. -/
theorem mem_toCreate (desired : List String) (existing : List AccessRecord)
    (pid : String) :
    pid ∈ toCreate desired existing ↔
      (pid ∈ desired ∧ pid ∉ existing.map AccessRecord.policy) := by
  simp [toCreate, List.mem_filter, List.any_eq_true]

/-- Membership in the to-delete list is exactly being the access id of an
observed record whose policy is not desired. -/
theorem mem_toDelete (desired : List String) (existing : List AccessRecord)
    (aid : String) :
    aid ∈ toDelete desired existing ↔
      ∃ r ∈ existing, r.id = aid ∧ r.policy ∉ desired := by
  simp [toDelete, List.mem_map, List.mem_filter]
  constructor
  · rintro ⟨r, ⟨hr, hp⟩, hid⟩
    exact ⟨r, hr, hid, hp⟩
  · rintro ⟨r, hr, hid, hp⟩
    exact ⟨r, ⟨hr, hp⟩, hid⟩

/-- C1: reconciler diff minimality.  When the desired list has set semantics
(no duplicates) and the observed access-record ids are distinct, the
to-create list contains exactly one instruction per policy id in `D \ O`
and nothing else, and the to-delete list contains exactly the access ids of
the observed records whose policy id is not desired, and nothing else. -/
theorem reconciler_minimality (desired : List String) (existing : List AccessRecord)
    (hnd : desired.Nodup) (hids : (existing.map AccessRecord.id).Nodup) :
    (∀ pid, (toCreate desired existing).count pid =
      (if pid ∈ desired ∧ pid ∉ existing.map AccessRecord.policy then 1 else 0))
    ∧ (∀ aid, (toDelete desired existing).count aid =
      (if ∃ r ∈ existing, r.id = aid ∧ r.policy ∉ desired then 1 else 0)) := by
  constructor
  · intro pid
    have hnodup : (toCreate desired existing).Nodup := hnd.filter _
    rw [count_of_nodup _ _ hnodup,
      if_congr (mem_toCreate desired existing pid) rfl rfl]
  · intro aid
    have hsub : List.Sublist (toDelete desired existing) (existing.map AccessRecord.id) := by
      have h1 : List.Sublist (existing.filter (fun r => !(desired.contains r.policy))) existing :=
        List.filter_sublist _
      simpa [toDelete] using h1.map AccessRecord.id
    have hnodup : (toDelete desired existing).Nodup := hids.sublist hsub
    rw [count_of_nodup _ _ hnodup,
      if_congr (mem_toDelete desired existing aid) rfl rfl]

/-- C1 witness: the partial-overlap scenario, observed
`(r1,p1), (r2,p2)` and desired `p2, p3`: exactly one create for `p3`,
none for `p1`/`p2`, and exactly the delete of `r1`. -/
theorem reconciler_minimality_witness :
    (toCreate ["p2", "p3"] [⟨"r1", "p1"⟩, ⟨"r2", "p2"⟩]).count "p3" = 1
    ∧ (toCreate ["p2", "p3"] [⟨"r1", "p1"⟩, ⟨"r2", "p2"⟩]).count "p2" = 0
    ∧ (toDelete ["p2", "p3"] [⟨"r1", "p1"⟩, ⟨"r2", "p2"⟩]).count "r1" = 1
    ∧ (toDelete ["p2", "p3"] [⟨"r1", "p1"⟩, ⟨"r2", "p2"⟩]).count "r2" = 0 := by
  have h := reconciler_minimality ["p2", "p3"] [⟨"r1", "p1"⟩, ⟨"r2", "p2"⟩]
    (by decide) (by decide)
  refine ⟨?_, ?_, ?_, ?_⟩
  · have := h.1 "p3"
    rwa [if_pos (by decide)] at this
  · have := h.1 "p2"
    rwa [if_neg (by decide)] at this
  · have := h.2 "r1"
    rwa [if_pos (by decide)] at this
  · have := h.2 "r2"
    rwa [if_neg (by decide)] at this

/-- When every desired policy is observed, there is nothing to create. -/
theorem toCreate_eq_nil (desired : List String) (existing : List AccessRecord)
    (h : ∀ pid ∈ desired, pid ∈ existing.map AccessRecord.policy) :
    toCreate desired existing = [] := by
  rw [List.eq_nil_iff_forall_not_mem]
  intro pid hm
  exact ((mem_toCreate desired existing pid).mp hm).2
    (h pid ((mem_toCreate desired existing pid).mp hm).1)

/-- When every observed policy is desired, there is nothing to delete. -/
theorem toDelete_eq_nil (desired : List String) (existing : List AccessRecord)
    (h : ∀ r ∈ existing, r.policy ∈ desired) :
    toDelete desired existing = [] := by
  rw [List.eq_nil_iff_forall_not_mem]
  intro aid hm
  rcases (mem_toDelete desired existing aid).mp hm with ⟨r, hr, _, hp⟩
  exact hp (h r hr)

/-- C2: no-op on equality.  If the desired policy-id set equals the observed
policy-id set, attachment Create and Update issue no write call at all, and
attachment Delete with an empty observed set issues no write call either. -/
theorem reconciler_noop_on_equality (roleID : String) (desired : List String)
    (existing : List AccessRecord) (writeRes : Except String Unit)
    (hDO : ∀ pid ∈ desired, pid ∈ existing.map AccessRecord.policy)
    (hOD : ∀ r ∈ existing, r.policy ∈ desired) :
    (attachmentCreate (.ok existing) writeRes roleID desired).2 = []
    ∧ (attachmentUpdate (.ok existing) writeRes roleID desired).2 = []
    ∧ (existing = [] → (attachmentDelete (.ok existing) writeRes roleID).2 = []) := by
  have htc := toCreate_eq_nil desired existing hDO
  have htd := toDelete_eq_nil desired existing hOD
  refine ⟨?_, ?_, ?_⟩
  · simp [attachmentCreate, htc, htd]
  · simp [attachmentUpdate, htc, htd]
  · intro he
    subst he
    simp [attachmentDelete]

/-- C2 witness: observed records for policies `p1, p2` and desired set
`p2, p1` (equal as sets): no write is issued on any of the three paths. -/
theorem reconciler_noop_on_equality_witness :
    (attachmentCreate (.ok [⟨"r1", "p1"⟩, ⟨"r2", "p2"⟩]) (.ok ()) "role1"
      ["p2", "p1"]).2 = []
    ∧ (attachmentUpdate (.ok [⟨"r1", "p1"⟩, ⟨"r2", "p2"⟩]) (.ok ()) "role1"
      ["p2", "p1"]).2 = []
    ∧ (attachmentDelete (.ok ([] : List AccessRecord)) (.ok ()) "role1").2 = [] := by
  have h := reconciler_noop_on_equality "role1" ["p2", "p1"]
    [⟨"r1", "p1"⟩, ⟨"r2", "p2"⟩] (.ok ()) (by decide) (by decide)
  have h0 := reconciler_noop_on_equality "role1" [] ([] : List AccessRecord)
    (.ok ()) (by decide) (by decide)
  exact ⟨h.1, h.2.1, h0.2.2 rfl⟩

/-- C3: batched write shape.  Whenever any change is needed, Create and
Update issue exactly one PATCH-to-role write whose body nests both
operations under the single `policies` key, with the `create` key present
if and only if the to-create list is non-empty and the `delete` key present
if and only if the to-delete list is non-empty; Delete with a non-empty
observed set issues exactly one such PATCH carrying only the `delete` key. -/
theorem reconciler_batched_write (roleID : String) (desired : List String)
    (existing : List AccessRecord) (writeRes : Except String Unit)
    (hchange : toCreate desired existing ≠ [] ∨ toDelete desired existing ≠ []) :
    (attachmentCreate (.ok existing) writeRes roleID desired).2 =
      [⟨"roles", roleID,
        rolePatchBody (toCreate desired existing) (toDelete desired existing)⟩]
    ∧ (attachmentUpdate (.ok existing) writeRes roleID desired).2 =
      [⟨"roles", roleID,
        rolePatchBody (toCreate desired existing) (toDelete desired existing)⟩]
    ∧ (∀ tc td : List String,
      (rolePatchBody tc td).lookup "policies" = some (JValue.obj (policiesOp tc td)))
    ∧ (∀ tc td : List String,
      ((policiesOp tc td).lookup "create" = some (JValue.arr (tc.map createInstr))
        ↔ tc ≠ [])
      ∧ ((policiesOp tc td).lookup "create" = none ↔ tc = [])
      ∧ ((policiesOp tc td).lookup "delete" = some (JValue.arr (td.map JValue.str))
        ↔ td ≠ [])
      ∧ ((policiesOp tc td).lookup "delete" = none ↔ td = []))
    ∧ (existing ≠ [] → (attachmentDelete (.ok existing) writeRes roleID).2 =
      [⟨"roles", roleID,
        [("policies", JValue.obj
          [("delete", JValue.arr ((existing.map (fun r => r.id)).map JValue.str))])]⟩]) := by
  have hcond : (toCreate desired existing).length > 0 ∨
      (toDelete desired existing).length > 0 := by
    rcases hchange with h | h
    · exact Or.inl (List.length_pos.mpr h)
    · exact Or.inr (List.length_pos.mpr h)
  refine ⟨?_, ?_, ?_, ?_, ?_⟩
  · cases writeRes <;> simp [attachmentCreate, if_pos hcond]
  · cases writeRes <;> simp [attachmentUpdate, if_pos hcond]
  · intro tc td
    simp [rolePatchBody, List.lookup]
  · intro tc td
    by_cases h1 : tc = [] <;> by_cases h2 : td = [] <;>
      simp [policiesOp, h1, h2, List.lookup, List.length_pos.mpr,
        List.length_pos, lookup_append, List.ne_nil_of_length_pos]
  · intro hne
    have hlen : ¬ existing.length = 0 := by
      simpa [List.length_eq_zero] using hne
    cases writeRes <;> simp [attachmentDelete, hlen]

/-- C3 witness: the theorem applied with desired `p1` against an empty
observed set: one PATCH whose body carries only a `create` key. -/
theorem reconciler_batched_write_witness :
    (attachmentCreate (.ok ([] : List AccessRecord)) (.ok ()) "role1" ["p1"]).2 =
      [⟨"roles", "role1", rolePatchBody (toCreate ["p1"] []) (toDelete ["p1"] [])⟩] :=
  (reconciler_batched_write "role1" ["p1"] [] (.ok ()) (by decide)).1

/-- C4: read-failure atomicity.  When the initial read of the current
relation records fails, attachment Create, Update and Delete all return an
error outcome and issue no write call whatsoever. -/
theorem reconciler_read_failure (e : String) (writeRes : Except String Unit)
    (roleID : String) (desired : List String) :
    exceptOk (attachmentCreate (.error e) writeRes roleID desired).1 = false
    ∧ (attachmentCreate (.error e) writeRes roleID desired).2 = []
    ∧ exceptOk (attachmentUpdate (.error e) writeRes roleID desired).1 = false
    ∧ (attachmentUpdate (.error e) writeRes roleID desired).2 = []
    ∧ exceptOk (attachmentDelete (.error e) writeRes roleID).1 = false
    ∧ (attachmentDelete (.error e) writeRes roleID).2 = [] :=
  ⟨rfl, rfl, rfl, rfl, rfl, rfl⟩

/-! ### Role resource mapper (internal/provider/role_resource.go) -/

/-- `RoleResourceModel`. -/
structure RoleResourceModel where
  ID : TFString
  Name : TFString
  Icon : TFString
  Description : TFString
  Parent : TFString
  Children : TFList
  Users : TFList

/-- role_resource.go `buildRoleInput`: name always on create, optional
fields via `setStringField`, and the parent field with nullable semantics on
update only. -/
def buildRoleInput (data : RoleResourceModel) (isCreate : Bool) : JObj :=
  let input : JObj := []
  let input :=
    if isCreate then input ++ [("name", JValue.str data.Name.valueString)]
    else setStringField input "name" data.Name
  let input := setStringField input "icon" data.Icon
  let input := setStringField input "description" data.Description
  let input :=
    if !isCreate then setNullableStringField input "parent" data.Parent
    else setStringField input "parent" data.Parent
  input

/-- C5 counterexample: a role configuration whose parent is explicitly null,
mapped with the create variant of the config→request-body mapping: the
outgoing payload does not contain the `parent` key at all, in particular it
does not map it to an explicit JSON null as the claim requires. -/
theorem role_parent_create_counterexample :
    (buildRoleInput
      ⟨TFString.null, TFString.value "n", TFString.null, TFString.null,
        TFString.null, TFList.null, TFList.null⟩ true).lookup "parent" = none
    ∧ (buildRoleInput
      ⟨TFString.null, TFString.value "n", TFString.null, TFString.null,
        TFString.null, TFList.null, TFList.null⟩ true).lookup "parent"
      ≠ some JValue.null :=
  ⟨rfl, fun h => Option.noConfusion h⟩

/-- C5 (amended): in the update payload a null parent is sent as an explicit
JSON null, an unknown parent is omitted, and a set parent is sent as its
string; in the create payload the parent — like every other optional field
(icon, description, and name on update) — is included exactly when it is
explicitly set. -/
theorem role_parent_nullable (data : RoleResourceModel) :
    ((buildRoleInput data false).lookup "parent" = tfNullableEntry data.Parent)
    ∧ ((buildRoleInput data true).lookup "parent" = tfStrEntry data.Parent)
    ∧ ((buildRoleInput data false).lookup "icon" = tfStrEntry data.Icon)
    ∧ ((buildRoleInput data true).lookup "icon" = tfStrEntry data.Icon)
    ∧ ((buildRoleInput data false).lookup "description" = tfStrEntry data.Description)
    ∧ ((buildRoleInput data true).lookup "description" = tfStrEntry data.Description)
    ∧ ((buildRoleInput data false).lookup "name" = tfStrEntry data.Name)
    ∧ ((buildRoleInput data true).lookup "name" =
      some (JValue.str data.Name.valueString)) := by
  rcases data with ⟨i, nm, ic, d, p, ch, us⟩
  cases nm <;> cases ic <;> cases d <;> cases p <;>
    exact ⟨rfl, rfl, rfl, rfl, rfl, rfl, rfl, rfl⟩

/-! ### Policy resource mapper (policy_resource.go) -/

/-- `PolicyResourceModel`. -/
structure PolicyResourceModel where
  ID : TFString
  Name : TFString
  Icon : TFString
  Description : TFString
  IPAccess : TFString
  EnforceTFA : TFBool
  AdminAccess : TFBool
  AppAccess : TFBool

/-- Go `strings.TrimSpace`, modelled at the character level: drop leading
and trailing whitespace. -/
def trimSpace (s : String) : String :=
  String.mk (((s.toList.dropWhile Char.isWhitespace).reverse.dropWhile
    Char.isWhitespace).reverse)

/-- Go `strings.Split(s, ",")`, modelled at the character level: the
segments of the character list between commas. -/
def splitComma (s : String) : List String :=
  (s.toList.splitOn ',').map String.mk

/-- Go `strings.Join(l, ",")`, modelled at the character level: the
character lists of the parts interleaved with commas. -/
def joinComma (l : List String) : String :=
  String.mk (List.intercalate [','] (l.map String.toList))

/-- policy_resource.go `setIPAccessField`: skip null/unknown and the empty
string; split the CSV on commas, trim each part, drop empty parts, and set
the `ip_access` key only when at least one part remains. -/
def setIPAccessField (input : JObj) (value : TFString) : JObj :=
  if value.isNull || value.isUnknown then
    input
  else
    let csv := value.valueString
    if csv = "" then
      input
    else
      let trimmed := ((splitComma csv).map trimSpace).filter (fun s => !(s == ""))
      if trimmed.length > 0 then
        input ++ [("ip_access", JValue.arr (trimmed.map JValue.str))]
      else
        input

/-- The ip_access part of policy_resource.go `policyAPIResponse.toModel`:
a non-empty wire array joins to a comma-separated config string, an empty
or absent array maps to a null config string. -/
def ipAccessToModel (ipAccess : List String) : TFString :=
  if ipAccess.length > 0 then TFString.value (joinComma ipAccess)
  else TFString.null

/-- The request body built by `PolicyResource.Update` (the same field chain
as `Create` except that `name` is optional rather than forced). -/
def policyUpdateBody (plan : PolicyResourceModel) : JObj :=
  let reqBody : JObj := []
  let reqBody := setStringField reqBody "name" plan.Name
  let reqBody := setStringField reqBody "icon" plan.Icon
  let reqBody := setStringField reqBody "description" plan.Description
  let reqBody := setIPAccessField reqBody plan.IPAccess
  let reqBody := setBoolField reqBody "enforce_tfa" plan.EnforceTFA
  let reqBody := setBoolField reqBody "admin_access" plan.AdminAccess
  let reqBody := setBoolField reqBody "app_access" plan.AppAccess
  reqBody

/-- Rebuilding a string from its characters is the identity. -/
theorem mk_toList (s : String) : String.mk s.toList = s := rfl

/-- Splitting on commas is a left inverse of joining with commas, for
non-empty lists of comma-free parts. -/
theorem splitComma_joinComma (l : List String) (hl : l ≠ [])
    (hc : ∀ s ∈ l, ',' ∉ s.toList) :
    splitComma (joinComma l) = l := by
  unfold splitComma joinComma
  have h1 : (String.mk (List.intercalate [','] (l.map String.toList))).toList
      = List.intercalate [','] (l.map String.toList) := rfl
  rw [h1]
  rw [List.splitOn_intercalate (l.map String.toList) ','
    (by
      intro cs hcs
      rcases List.mem_map.mp hcs with ⟨s, hs, hrfl⟩
      rw [← hrfl]
      exact hc s hs)
    (by simpa using hl)]
  rw [List.map_map]
  have h2 := List.map_congr_left
    (l := l) (f := String.mk ∘ String.toList) (g := id) (fun s _ => mk_toList s)
  simpa using h2

/-- Evaluation of `setIPAccessField` on a set, non-empty CSV that leaves at
least one non-empty trimmed part. -/
theorem setIPAccessField_value (input : JObj) (csv : String) (hcsv : ¬ csv = "")
    (ht : ((splitComma csv).map trimSpace).filter (fun s => !(s == "")) ≠ []) :
    setIPAccessField input (TFString.value csv) =
      input ++ [("ip_access", JValue.arr
        ((((splitComma csv).map trimSpace).filter (fun s => !(s == ""))).map
          JValue.str))] := by
  unfold setIPAccessField
  simp [TFString.isNull, TFString.isUnknown, TFString.valueString, hcsv,
    List.length_pos.mpr ht]

/-- C7 counterexample: the empty wire array does not round-trip.  It maps to
a null config value, and mapping that back produces a payload with no
`ip_access` key at all — not the identity, which would produce the empty
array. -/
theorem ip_access_empty_array_counterexample :
    (setIPAccessField [] (ipAccessToModel [])).lookup "ip_access" = none
    ∧ (setIPAccessField [] (ipAccessToModel [])).lookup "ip_access"
      ≠ some (JValue.arr (([] : List String).map JValue.str)) :=
  ⟨rfl, fun h => Option.noConfusion h⟩

/-- C7 (amended): the concrete IP-access round trip of the spec holds, and
wire→config→wire is the identity on non-empty arrays of trimmed non-empty
strings containing no commas (the empty array instead maps to a null config
value and then to an absent key). -/
theorem ip_access_round_trip (l : List String) (hl : l ≠ [])
    (h : ∀ s ∈ l, s ≠ "" ∧ trimSpace s = s ∧ ',' ∉ s.toList) :
    ipAccessToModel l = TFString.value (joinComma l)
    ∧ (setIPAccessField [] (TFString.value (joinComma l))).lookup "ip_access"
      = some (JValue.arr (l.map JValue.str))
    ∧ (setIPAccessField []
        (TFString.value "10.0.0.0/8, 192.168.1.0/24")).lookup "ip_access"
      = some (JValue.arr [JValue.str "10.0.0.0/8", JValue.str "192.168.1.0/24"])
    ∧ ipAccessToModel ["10.0.0.0/8", "192.168.1.0/24"]
      = TFString.value "10.0.0.0/8,192.168.1.0/24" := by
  have hsplit : splitComma (joinComma l) = l :=
    splitComma_joinComma l hl (fun s hs => (h s hs).2.2)
  have htrim : ((splitComma (joinComma l)).map trimSpace).filter
      (fun s => !(s == "")) = l := by
    rw [hsplit]
    have hmap : l.map trimSpace = l := by
      have hm := List.map_congr_left
        (l := l) (f := trimSpace) (g := id) (fun s hs => (h s hs).2.1)
      simpa using hm
    rw [hmap]
    rw [List.filter_eq_self.mpr]
    intro s hs
    simp [(h s hs).1]
  have hcsv : ¬ joinComma l = "" := by
    intro h0
    rw [h0] at hsplit
    have h2 : l = [""] := hsplit.symm.trans (by decide)
    rcases h "" (by rw [h2]; exact List.mem_singleton_self "") with ⟨hne, _, _⟩
    exact hne rfl
  refine ⟨?_, ?_, by rfl, by rfl⟩
  · unfold ipAccessToModel
    rw [if_pos (List.length_pos.mpr hl)]
  · rw [setIPAccessField_value [] (joinComma l) hcsv (by rw [htrim]; exact hl)]
    rw [htrim]
    simp [List.lookup]

/-- C7 witness: the amended theorem applied at the concrete wire array of
the spec. -/
theorem ip_access_round_trip_witness :
    ipAccessToModel ["10.0.0.0/8", "192.168.1.0/24"]
      = TFString.value (joinComma ["10.0.0.0/8", "192.168.1.0/24"]) :=
  (ip_access_round_trip ["10.0.0.0/8", "192.168.1.0/24"] (by decide)
    (by decide)).1

/-! ### C10: the ip_access wire key as built by PolicyResource.Update -/

/-- Lookup of any key other than `ip_access` passes `setIPAccessField`
through. -/
theorem setIPAccessField_lookup_ne (input : JObj) (q : String) (v : TFString)
    (h : (q == "ip_access") = false) :
    (setIPAccessField input v).lookup q = input.lookup q := by
  cases v with
  | null => rfl
  | unknown => rfl
  | value csv =>
    by_cases hc : csv = ""
    · simp [setIPAccessField, TFString.isNull, TFString.isUnknown,
        TFString.valueString, hc]
    · by_cases hl : (((splitComma csv).map trimSpace).filter
          (fun s => !(s == ""))).length > 0
      · simp [setIPAccessField, TFString.isNull, TFString.isUnknown,
          TFString.valueString, hc, hl, lookup_append_single_ne _ _ _ _ h]
      · simp [setIPAccessField, TFString.isNull, TFString.isUnknown,
          TFString.valueString, hc, hl]

/-- The `ip_access` entry produced by `setIPAccessField` on a fresh key:
present exactly when the value is set, non-empty, and leaves at least one
non-empty trimmed CSV part. -/
theorem setIPAccessField_lookup_self (input : JObj) (v : TFString)
    (h : input.lookup "ip_access" = none) :
    (setIPAccessField input v).lookup "ip_access" =
      (match v with
      | TFString.value csv =>
        if csv = "" then none
        else
          if (((splitComma csv).map trimSpace).filter
              (fun s => !(s == ""))).length > 0 then
            some (JValue.arr (((((splitComma csv).map trimSpace).filter
              (fun s => !(s == "")))).map JValue.str))
          else none
      | _ => none) := by
  cases v with
  | null => simpa [setIPAccessField, TFString.isNull] using h
  | unknown => simpa [setIPAccessField, TFString.isUnknown] using h
  | value csv =>
    by_cases hc : csv = ""
    · simpa [setIPAccessField, TFString.isNull, TFString.isUnknown,
        TFString.valueString, hc] using h
    · by_cases hl : (((splitComma csv).map trimSpace).filter
          (fun s => !(s == ""))).length > 0
      · simp [setIPAccessField, TFString.isNull, TFString.isUnknown,
          TFString.valueString, hc, hl, lookup_append_single_self _ _ _ h]
      · simpa [setIPAccessField, TFString.isNull, TFString.isUnknown,
          TFString.valueString, hc, hl] using h

/-- The `ip_access` lookup on the whole update body reduces to the
`setIPAccessField` entry: the other six fields use different keys. -/
theorem policyUpdateBody_lookup_ip (plan : PolicyResourceModel) :
    (policyUpdateBody plan).lookup "ip_access" =
      (setIPAccessField (setStringField (setStringField (setStringField []
        "name" plan.Name) "icon" plan.Icon) "description" plan.Description)
        plan.IPAccess).lookup "ip_access" := by
  simp only [policyUpdateBody]
  rw [setBoolField_lookup_ne _ _ _ _ (by decide),
    setBoolField_lookup_ne _ _ _ _ (by decide),
    setBoolField_lookup_ne _ _ _ _ (by decide)]

/-- C10: no way to clear the remote IP allowlist.  For every policy plan
whose `ip_access` is a set string all of whose comma-separated segments trim
to empty (the empty string included), the update payload contains no
`ip_access` key at all; and no plan whatsoever makes the update payload
carry `ip_access` as the empty array. -/
theorem ip_access_never_empty_array :
    (∀ (plan : PolicyResourceModel) (csv : String),
      plan.IPAccess = TFString.value csv →
      (∀ s ∈ splitComma csv, trimSpace s = "") →
      (policyUpdateBody plan).lookup "ip_access" = none)
    ∧ (∀ plan : PolicyResourceModel,
      (policyUpdateBody plan).lookup "ip_access" ≠ some (JValue.arr [])) := by
  have hpre : ∀ plan : PolicyResourceModel,
      (setStringField (setStringField (setStringField [] "name" plan.Name)
        "icon" plan.Icon) "description" plan.Description).lookup "ip_access"
      = none := by
    intro plan
    rw [setStringField_lookup_ne _ _ _ _ (by decide),
      setStringField_lookup_ne _ _ _ _ (by decide),
      setStringField_lookup_ne _ _ _ _ (by decide)]
    rfl
  constructor
  · intro plan csv hip hall
    rw [policyUpdateBody_lookup_ip plan,
      setIPAccessField_lookup_self _ _ (hpre plan), hip]
    have hnil : ((splitComma csv).map trimSpace).filter (fun s => !(s == ""))
        = [] := by
      rw [List.filter_eq_nil_iff]
      intro a ha
      rcases List.mem_map.mp ha with ⟨s, hs, hrfl⟩
      rw [← hrfl, hall s hs]
      simp
    by_cases hc : csv = "" <;> simp [hc, hnil]
  · intro plan
    rw [policyUpdateBody_lookup_ip plan,
      setIPAccessField_lookup_self _ _ (hpre plan)]
    cases plan.IPAccess with
    | null => simp
    | unknown => simp
    | value csv =>
      by_cases hc : csv = ""
      · simp [hc]
      · by_cases hl : (((splitComma csv).map trimSpace).filter
            (fun s => !(s == ""))).length > 0
        · have hne : ((splitComma csv).map trimSpace).filter
              (fun s => !(s == "")) ≠ [] := List.ne_nil_of_length_pos hl
          simp [hc, hl]
          rcases List.exists_mem_of_ne_nil _ hne with ⟨a, ha⟩
          have h1 := List.mem_filter.mp ha
          rcases List.mem_map.mp h1.1 with ⟨x, hx, hrfl⟩
          refine ⟨x, hx, ?_⟩
          intro h0
          have h2 := h1.2
          rw [← hrfl, h0] at h2
          simp at h2
        · simp [hc, hl]

/-- C10 witness: a plan whose `ip_access` is `" , "` (all segments trim to
empty) produces an update payload without the `ip_access` key. -/
theorem ip_access_never_empty_array_witness :
    (policyUpdateBody
      ⟨TFString.null, TFString.value "n", TFString.null, TFString.null,
        TFString.value " , ", TFBool.null, TFBool.null, TFBool.null⟩).lookup
      "ip_access" = none :=
  ip_access_never_empty_array.1
    ⟨TFString.null, TFString.value "n", TFString.null, TFString.null,
      TFString.value " , ", TFBool.null, TFBool.null, TFBool.null⟩
    " , " rfl (by decide)

/-! ### Collection resource mapper (collection_resource.go) -/

/-- `CollectionResourceModel`. -/
structure CollectionResourceModel where
  Collection : TFString
  Icon : TFString
  Note : TFString
  Hidden : TFBool
  Singleton : TFBool
  SortField : TFString
  Archive : TFString
  Color : TFString

/-- The `meta` object built by `buildCollectionInput`: the seven optional
metadata fields, each included only when explicitly set. -/
def collectionMeta (data : CollectionResourceModel) : JObj :=
  let meta : JObj := []
  let meta := setStringField meta "icon" data.Icon
  let meta := setStringField meta "note" data.Note
  let meta := setBoolField meta "hidden" data.Hidden
  let meta := setBoolField meta "singleton" data.Singleton
  let meta := setStringField meta "sort_field" data.SortField
  let meta := setStringField meta "archive_field" data.Archive
  let meta := setStringField meta "color" data.Color
  meta

/-- collection_resource.go `buildCollectionInput`: on create the collection
name and an always-empty `schema` object are sent; the `meta` object is
attached only when non-empty. -/
def buildCollectionInput (data : CollectionResourceModel) (isCreate : Bool) : JObj :=
  let input : JObj := []
  let input :=
    if isCreate then
      (input ++ [("collection", JValue.str data.Collection.valueString)]) ++
        [("schema", JValue.obj [])]
    else input
  if (collectionMeta data).length > 0 then
    input ++ [("meta", JValue.obj (collectionMeta data))]
  else input

theorem setStringField_length (input : JObj) (k : String) (v : TFString) :
    (setStringField input k v).length =
      input.length + (if v.isSet then 1 else 0) := by
  cases v <;> simp [setStringField, TFString.isNull, TFString.isUnknown,
    TFString.isSet]

theorem setBoolField_length (input : JObj) (k : String) (v : TFBool) :
    (setBoolField input k v).length =
      input.length + (if v.isSet then 1 else 0) := by
  cases v <;> simp [setBoolField, TFBool.isNull, TFBool.isUnknown,
    TFBool.isSet]

theorem ind_add_pos (n : Nat) (b : Bool) :
    (n + (if b then 1 else 0) > 0) ↔ (n > 0 ∨ b = true) := by
  cases b <;> simp

/-- The `meta` object is non-empty exactly when at least one of the seven
metadata fields is explicitly set. -/
theorem collectionMeta_pos (data : CollectionResourceModel) :
    (collectionMeta data).length > 0 ↔
      (data.Icon.isSet || data.Note.isSet || data.Hidden.isSet ||
        data.Singleton.isSet || data.SortField.isSet || data.Archive.isSet ||
        data.Color.isSet) = true := by
  simp only [collectionMeta, setStringField_length, setBoolField_length,
    List.length_nil, ind_add_pos, Bool.or_eq_true]
  simp

/-- Per-key content of the `meta` object: each of the seven fields appears
exactly when set, carrying its value. -/
theorem collectionMeta_lookup (data : CollectionResourceModel) :
    ((collectionMeta data).lookup "icon" = tfStrEntry data.Icon)
    ∧ ((collectionMeta data).lookup "note" = tfStrEntry data.Note)
    ∧ ((collectionMeta data).lookup "hidden" = tfBoolEntry data.Hidden)
    ∧ ((collectionMeta data).lookup "singleton" = tfBoolEntry data.Singleton)
    ∧ ((collectionMeta data).lookup "sort_field" = tfStrEntry data.SortField)
    ∧ ((collectionMeta data).lookup "archive_field" = tfStrEntry data.Archive)
    ∧ ((collectionMeta data).lookup "color" = tfStrEntry data.Color) := by
  simp only [collectionMeta]
  refine ⟨?_, ?_, ?_, ?_, ?_, ?_, ?_⟩
  · rw [setStringField_lookup_ne _ _ _ _ (by decide),
      setStringField_lookup_ne _ _ _ _ (by decide),
      setStringField_lookup_ne _ _ _ _ (by decide),
      setBoolField_lookup_ne _ _ _ _ (by decide),
      setBoolField_lookup_ne _ _ _ _ (by decide),
      setStringField_lookup_ne _ _ _ _ (by decide),
      setStringField_lookup_self _ _ _ ?_]
    rfl
  · rw [setStringField_lookup_ne _ _ _ _ (by decide),
      setStringField_lookup_ne _ _ _ _ (by decide),
      setStringField_lookup_ne _ _ _ _ (by decide),
      setBoolField_lookup_ne _ _ _ _ (by decide),
      setBoolField_lookup_ne _ _ _ _ (by decide),
      setStringField_lookup_self _ _ _ ?_]
    rw [setStringField_lookup_ne _ _ _ _ (by decide)]
    rfl
  · rw [setStringField_lookup_ne _ _ _ _ (by decide),
      setStringField_lookup_ne _ _ _ _ (by decide),
      setStringField_lookup_ne _ _ _ _ (by decide),
      setBoolField_lookup_ne _ _ _ _ (by decide),
      setBoolField_lookup_self _ _ _ ?_]
    rw [setStringField_lookup_ne _ _ _ _ (by decide),
      setStringField_lookup_ne _ _ _ _ (by decide)]
    rfl
  · rw [setStringField_lookup_ne _ _ _ _ (by decide),
      setStringField_lookup_ne _ _ _ _ (by decide),
      setStringField_lookup_ne _ _ _ _ (by decide),
      setBoolField_lookup_self _ _ _ ?_]
    rw [setBoolField_lookup_ne _ _ _ _ (by decide),
      setStringField_lookup_ne _ _ _ _ (by decide),
      setStringField_lookup_ne _ _ _ _ (by decide)]
    rfl
  · rw [setStringField_lookup_ne _ _ _ _ (by decide),
      setStringField_lookup_ne _ _ _ _ (by decide),
      setStringField_lookup_self _ _ _ ?_]
    rw [setBoolField_lookup_ne _ _ _ _ (by decide),
      setBoolField_lookup_ne _ _ _ _ (by decide),
      setStringField_lookup_ne _ _ _ _ (by decide),
      setStringField_lookup_ne _ _ _ _ (by decide)]
    rfl
  · rw [setStringField_lookup_ne _ _ _ _ (by decide),
      setStringField_lookup_self _ _ _ ?_]
    rw [setStringField_lookup_ne _ _ _ _ (by decide),
      setBoolField_lookup_ne _ _ _ _ (by decide),
      setBoolField_lookup_ne _ _ _ _ (by decide),
      setStringField_lookup_ne _ _ _ _ (by decide),
      setStringField_lookup_ne _ _ _ _ (by decide)]
    rfl
  · rw [setStringField_lookup_self _ _ _ ?_]
    rw [setStringField_lookup_ne _ _ _ _ (by decide),
      setStringField_lookup_ne _ _ _ _ (by decide),
      setBoolField_lookup_ne _ _ _ _ (by decide),
      setBoolField_lookup_ne _ _ _ _ (by decide),
      setStringField_lookup_ne _ _ _ _ (by decide),
      setStringField_lookup_ne _ _ _ _ (by decide)]
    rfl

/-- C8: collection payload asymmetry.  The create payload always carries the
collection name and `schema` mapped to the empty object, and carries `meta`
(holding exactly the set sub-fields, per `collectionMeta_lookup`) if and
only if at least one metadata field is explicitly set; the update payload
never carries the `collection` or `schema` keys. -/
theorem collection_payload_asymmetry (data : CollectionResourceModel) :
    ((buildCollectionInput data true).lookup "collection" =
      some (JValue.str data.Collection.valueString))
    ∧ ((buildCollectionInput data true).lookup "schema" =
      some (JValue.obj []))
    ∧ ((buildCollectionInput data true).lookup "meta" =
      (if (collectionMeta data).length > 0 then
        some (JValue.obj (collectionMeta data)) else none))
    ∧ ((collectionMeta data).length > 0 ↔
      (data.Icon.isSet || data.Note.isSet || data.Hidden.isSet ||
        data.Singleton.isSet || data.SortField.isSet || data.Archive.isSet ||
        data.Color.isSet) = true)
    ∧ ((collectionMeta data).lookup "icon" = tfStrEntry data.Icon)
    ∧ ((collectionMeta data).lookup "note" = tfStrEntry data.Note)
    ∧ ((collectionMeta data).lookup "hidden" = tfBoolEntry data.Hidden)
    ∧ ((collectionMeta data).lookup "singleton" = tfBoolEntry data.Singleton)
    ∧ ((collectionMeta data).lookup "sort_field" = tfStrEntry data.SortField)
    ∧ ((collectionMeta data).lookup "archive_field" = tfStrEntry data.Archive)
    ∧ ((collectionMeta data).lookup "color" = tfStrEntry data.Color)
    ∧ ((buildCollectionInput data false).lookup "collection" = none)
    ∧ ((buildCollectionInput data false).lookup "schema" = none) := by
  have hl := collectionMeta_lookup data
  by_cases hm : (collectionMeta data).length > 0 <;>
    exact ⟨by simp [buildCollectionInput, hm, lookup_append, List.lookup],
      by simp [buildCollectionInput, hm, lookup_append, List.lookup],
      by simp [buildCollectionInput, hm, lookup_append, List.lookup],
      collectionMeta_pos data, hl.1, hl.2.1, hl.2.2.1, hl.2.2.2.1,
      hl.2.2.2.2.1, hl.2.2.2.2.2.1, hl.2.2.2.2.2.2,
      by simp [buildCollectionInput, hm, lookup_append, List.lookup],
      by simp [buildCollectionInput, hm, lookup_append, List.lookup]⟩

end Directus
